import Mathlib

/-!
Verification of the waypointjs core: waypoint store, bounded undo/redo
history, geometry engine, event bus and the RoutePlanner coordinator.

The TypeScript sources are shallowly embedded: classes become structures,
methods become pure functions threading the state explicitly, `async`
methods are modelled synchronously with the external calculation outcome
passed as an explicit argument, and thrown errors become `Except` results.
JavaScript numbers are modelled as rationals.  `Date.now()` and
`generateId()` are nondeterministic at the source level, so operations
that consume them take the produced value (`now`, `id`) as an argument.

The haversine implementation `calculateDistance` lives in `geo/distance`,
a module that is not part of the sources at hand; every geometry function
therefore takes the point-to-point metric `dist` as an explicit parameter,
and the geometry theorems below hold for an arbitrary metric.
-/

set_option autoImplicit false

namespace Waypointjs

/-- GeoJSON position `[longitude, latitude]`.  The optional third (altitude)
component of the source type is never read by any function and is omitted. -/
abbrev Position := ℚ × ℚ

/-- Named coordinate record from `types`. -/
structure Coordinate where
  longitude : ℚ
  latitude : ℚ
deriving DecidableEq

/-- Source `positionToCoordinate` from `geo/polyline`. -/
def positionToCoordinate (pos : Position) : Coordinate :=
  { longitude := pos.1, latitude := pos.2 }

/-- Waypoint record from `types`. -/
structure Waypoint where
  id : String
  index : Nat
  longitude : ℚ
  latitude : ℚ
  name : Option String
  createdAt : Nat
deriving DecidableEq

/-- History action tag from `types`. -/
inductive HistoryAction where
  | add | remove | update | reorder | clear
deriving DecidableEq

/-- History entry from `types`: a snapshot of the waypoint list plus
bookkeeping. -/
structure HistoryEntry where
  waypoints : List Waypoint
  timestamp : Nat
  action : HistoryAction
deriving DecidableEq

/-- Result record of `findNearestPointOnLine` from `types`. -/
structure NearestPointResult where
  point : Coordinate
  distance : ℚ
  segmentIndex : Nat
  segmentFraction : ℚ
deriving DecidableEq

/-- Navigation step from `types`.  `maneuverType` is a closed string union
in the source and is modelled as a plain string. -/
structure NavigationStep where
  id : String
  index : Nat
  instruction : String
  maneuverType : String
  distanceMeters : ℚ
  durationSeconds : ℚ
  geometry : List Position
deriving DecidableEq

/-- Calculated route from `types`.  `bounds` is `[minLng, minLat, maxLng,
maxLat]`. -/
structure Route where
  geometry : List Position
  waypoints : List Waypoint
  steps : List NavigationStep
  bounds : ℚ × ℚ × ℚ × ℚ
deriving DecidableEq

/-- Route statistics from `types`. -/
structure RouteStats where
  distanceMeters : ℚ
  durationSeconds : ℚ
  waypointCount : Nat
  stepCount : Nat
deriving DecidableEq

/-! ## Geometry engine (`geo/polyline`, `geo/nearest-point`)

All functions take the metric `dist` (the source's `calculateDistance`)
as a parameter. -/

/-- Sum of `dist` over consecutive pairs: the accumulation loop shared by
`calculateLineLength` and the tail loop of `calculateRemainingLength`. -/
def segSum (dist : Coordinate → Coordinate → ℚ) : List Position → ℚ
  | [] => 0
  | [_] => 0
  | a :: b :: rest =>
      dist (positionToCoordinate a) (positionToCoordinate b) + segSum dist (b :: rest)

/-- Source `calculateLineLength`: total length of a polyline, `0` for fewer
than 2 points. -/
def calculateLineLength (dist : Coordinate → Coordinate → ℚ)
    (coordinates : List Position) : ℚ :=
  if coordinates.length < 2 then 0 else segSum dist coordinates

/-- Source `calculateRemainingLength`: partial length of segment `fromIndex`
scaled by `(1 - fromFraction)` plus the lengths of all later segments;
`0` when the line has fewer than 2 points or `fromIndex ≥ length - 1`. -/
def calculateRemainingLength (dist : Coordinate → Coordinate → ℚ)
    (coordinates : List Position) (fromIndex : Nat) (fromFraction : ℚ) : ℚ :=
  if coordinates.length < 2 ∨ coordinates.length - 1 ≤ fromIndex then 0
  else
    let segmentStart := positionToCoordinate (coordinates.getD fromIndex (0, 0))
    let segmentEnd := positionToCoordinate (coordinates.getD (fromIndex + 1) (0, 0))
    let segmentLength := dist segmentStart segmentEnd
    segmentLength * (1 - fromFraction) + segSum dist (coordinates.drop (fromIndex + 1))

/-- Restatement of the spec sentence for `remainingDistance`, written
independently with an indexed finite sum, to be compared with the
translated implementation. -/
def specRemainingDistance (dist : Coordinate → Coordinate → ℚ)
    (coordinates : List Position) (fromIndex : Nat) (fromFraction : ℚ) : ℚ :=
  if coordinates.length < 2 ∨ coordinates.length - 1 ≤ fromIndex then 0
  else
    dist (positionToCoordinate (coordinates.getD fromIndex (0, 0)))
        (positionToCoordinate (coordinates.getD (fromIndex + 1) (0, 0))) * (1 - fromFraction)
      + ∑ j in Finset.Ico (fromIndex + 1) (coordinates.length - 1),
          dist (positionToCoordinate (coordinates.getD j (0, 0)))
            (positionToCoordinate (coordinates.getD (j + 1) (0, 0)))

/-- JavaScript `Math.min` on two (non-NaN) numbers. -/
def mathMin (a b : ℚ) : ℚ :=
  if a ≤ b then a else b

/-- JavaScript `Math.max` on two (non-NaN) numbers. -/
def mathMax (a b : ℚ) : ℚ :=
  if b ≤ a then a else b

/-- Result of `nearestPointOnSegment` in `geo/nearest-point`. -/
structure SegProj where
  point : Coordinate
  distance : ℚ
  fraction : ℚ
deriving DecidableEq

/-- Source `nearestPointOnSegment`: planar projection of `point` onto the
segment, clamped to `[0,1]`, with the `dist` from `point` to the
projection. -/
def nearestPointOnSegment (dist : Coordinate → Coordinate → ℚ)
    (point segStart segEnd : Coordinate) : SegProj :=
  let dx := segEnd.longitude - segStart.longitude
  let dy := segEnd.latitude - segStart.latitude
  let lengthSquared := dx * dx + dy * dy
  if lengthSquared = 0 then
    { point := segStart, distance := dist point segStart, fraction := 0 }
  else
    let t := mathMax 0 (mathMin 1
      (((point.longitude - segStart.longitude) * dx
        + (point.latitude - segStart.latitude) * dy) / lengthSquared))
    let projected : Coordinate :=
      { longitude := segStart.longitude + t * dx, latitude := segStart.latitude + t * dy }
    { point := projected, distance := dist point projected, fraction := t }

/-- Loop of `findNearestPointOnLine`: walk the segments keeping the strict
minimum (`result.distance < minDistance`, so ties keep the earlier
segment); the accumulator starts as `none`, standing for the source's
`minDistance = Infinity` / `nearestPoint = null` pair. -/
def nearestFold (dist : Coordinate → Coordinate → ℚ) (point : Coordinate) :
    List Position → Nat → Option NearestPointResult → Option NearestPointResult
  | a :: b :: rest, i, acc =>
      let r := nearestPointOnSegment dist point (positionToCoordinate a) (positionToCoordinate b)
      let acc' :=
        match acc with
        | none => some { point := r.point, distance := r.distance,
                         segmentIndex := i, segmentFraction := r.fraction }
        | some best =>
            if r.distance < best.distance then
              some { point := r.point, distance := r.distance,
                     segmentIndex := i, segmentFraction := r.fraction }
            else some best
      nearestFold dist point (b :: rest) (i + 1) acc'
  | _, _, acc => acc

/-- Source `findNearestPointOnLine`: `none` for fewer than 2 points, else
the minimum over all segments. -/
def findNearestPointOnLine (dist : Coordinate → Coordinate → ℚ)
    (point : Coordinate) (lineCoordinates : List Position) : Option NearestPointResult :=
  if lineCoordinates.length < 2 then none
  else nearestFold dist point lineCoordinates 0 none

/-- Source `isOffRoute` (default threshold 50 at the call sites): true iff
the nearest-point distance strictly exceeds the threshold; false when no
nearest point exists. -/
def isOffRoute (dist : Coordinate → Coordinate → ℚ) (location : Coordinate)
    (routeCoordinates : List Position) (thresholdMeters : ℚ) : Bool :=
  match findNearestPointOnLine dist location routeCoordinates with
  | none => false
  | some nearest => thresholdMeters < nearest.distance

/-! ## Waypoint store (`infrastructure/WaypointRepository`)

The repository's mutable array is threaded explicitly as a `List Waypoint`.
Methods that return a value become functions returning the new list paired
with the source method's return value. -/

namespace WaypointRepository

/-- Source private `reindex`, unfolded with the running position made
explicit: `waypoints.map((wp, index) => ({...wp, index}))`. -/
def reindexFrom (n : Nat) : List Waypoint → List Waypoint
  | [] => []
  | wp :: rest => { wp with index := n } :: reindexFrom (n + 1) rest

/-- Source `reindex`. -/
def reindex (waypoints : List Waypoint) : List Waypoint :=
  reindexFrom 0 waypoints

/-- Source `getById`: first waypoint with the given id, if any. -/
def getById (id : String) (waypoints : List Waypoint) : Option Waypoint :=
  waypoints.find? (fun wp => wp.id = id)

/-- Source `add`: append a fresh waypoint whose `index` is the old length.
The generated id and `Date.now()` are arguments. -/
def add (coordinate : Coordinate) (name : Option String) (id : String) (now : Nat)
    (waypoints : List Waypoint) : List Waypoint × Waypoint :=
  let waypoint : Waypoint :=
    { id := id, index := waypoints.length, longitude := coordinate.longitude,
      latitude := coordinate.latitude, name := name, createdAt := now }
  (waypoints ++ [waypoint], waypoint)

/-- Source `insert`: clamp the index into `[0, length]`, splice the fresh
waypoint in, then reindex. -/
def insert (coordinate : Coordinate) (index : Int) (name : Option String)
    (id : String) (now : Nat) (waypoints : List Waypoint) : List Waypoint × Waypoint :=
  let clampedIndex := (max 0 (min index (waypoints.length : Int))).toNat
  let waypoint : Waypoint :=
    { id := id, index := clampedIndex, longitude := coordinate.longitude,
      latitude := coordinate.latitude, name := name, createdAt := now }
  (reindex (waypoints.take clampedIndex ++ waypoint :: waypoints.drop clampedIndex), waypoint)

/-- Source `remove`: locate by id (`findIndex`), splice out, reindex;
`none` and the unchanged list when the id is unknown. -/
def remove (id : String) (waypoints : List Waypoint) : List Waypoint × Option Waypoint :=
  match waypoints.findIdx? (fun wp => wp.id = id) with
  | none => (waypoints, none)
  | some index => (reindex (waypoints.eraseIdx index), waypoints.get? index)

/-- Source `update`: replace longitude/latitude in place, preserving every
other field; returns the prior coordinate, or `none` when the id is
unknown.  No reindex happens. -/
def update (id : String) (coordinate : Coordinate) (waypoints : List Waypoint) :
    List Waypoint × Option Coordinate :=
  match waypoints.findIdx? (fun wp => wp.id = id) with
  | none => (waypoints, none)
  | some index =>
      match waypoints.get? index with
      | none => (waypoints, none)
      | some wp =>
          ({ longitude := coordinate.longitude, latitude := coordinate.latitude : Coordinate} |>
            fun previous =>
              (waypoints.set index
                { wp with longitude := coordinate.longitude, latitude := coordinate.latitude },
               some previous))

/-- Source `reorder`: boolean failure when either index is outside
`[0, length-1]`; otherwise splice the element out, splice it back in at
`toIndex`, and reindex. -/
def reorder (fromIndex toIndex : Int) (waypoints : List Waypoint) :
    List Waypoint × Bool :=
  if fromIndex < 0 ∨ (waypoints.length : Int) ≤ fromIndex
      ∨ toIndex < 0 ∨ (waypoints.length : Int) ≤ toIndex then
    (waypoints, false)
  else
    match waypoints.get? fromIndex.toNat with
    | none => (waypoints, false)
    | some waypoint =>
        let removed := waypoints.eraseIdx fromIndex.toNat
        (reindex (removed.take toIndex.toNat ++ waypoint :: removed.drop toIndex.toNat), true)

/-- Source `setAll`: replace the whole list, recomputing every `index`
(the same map as `reindex`). -/
def setAll (newWaypoints : List Waypoint) : List Waypoint :=
  reindexFrom 0 newWaypoints

/-- Check that the `index` fields read `n, n+1, n+2, …` down the list. -/
def indexedFrom (n : Nat) : List Waypoint → Bool
  | [] => true
  | wp :: rest => wp.index = n && indexedFrom (n + 1) rest

/-- Index invariant of the store: the `index` fields are exactly
`0 .. count-1`, in list order, with no gaps or duplicates. -/
def Indexed (waypoints : List Waypoint) : Prop :=
  indexedFrom 0 waypoints = true

instance (waypoints : List Waypoint) : Decidable (Indexed waypoints) := by
  unfold Indexed; infer_instance

end WaypointRepository

/-- One call to the store, with all nondeterministic inputs (fresh id,
clock) carried as data. -/
inductive StoreOp where
  | add (c : Coordinate) (name : Option String) (id : String) (now : Nat)
  | insert (c : Coordinate) (index : Int) (name : Option String) (id : String) (now : Nat)
  | remove (id : String)
  | update (id : String) (c : Coordinate)
  | reorder (fromIndex toIndex : Int)
  | setAll (ws : List Waypoint)
  | clear

/-- Effect of one store call on the waypoint list. -/
def applyStoreOp (waypoints : List Waypoint) : StoreOp → List Waypoint
  | .add c name id now => (WaypointRepository.add c name id now waypoints).1
  | .insert c index name id now => (WaypointRepository.insert c index name id now waypoints).1
  | .remove id => (WaypointRepository.remove id waypoints).1
  | .update id c => (WaypointRepository.update id c waypoints).1
  | .reorder f t => (WaypointRepository.reorder f t waypoints).1
  | .setAll ws => WaypointRepository.setAll ws
  | .clear => []

/-- Run a sequence of store calls from the fresh, empty repository. -/
def runStore (ops : List StoreOp) : List Waypoint :=
  ops.foldl applyStoreOp []

/-! ## History manager (`infrastructure/HistoryManagerImpl`) -/

/-- State of `HistoryManagerImpl`: the entry list, the cursor (`-1` when
empty) and the constructor's `maxSize`. -/
structure HistoryState where
  maxSize : Nat
  history : List HistoryEntry
  currentIndex : Int
deriving DecidableEq

namespace HistoryState

/-- Fresh manager, as built by the constructor. -/
def empty (maxSize : Nat) : HistoryState :=
  { maxSize := maxSize, history := [], currentIndex := -1 }

/-- Source `canUndo`. -/
def canUndo (h : HistoryState) : Bool :=
  0 < h.currentIndex

/-- Source `canRedo`. -/
def canRedo (h : HistoryState) : Bool :=
  h.currentIndex < (h.history.length : Int) - 1

/-- Source `getSize`. -/
def getSize (h : HistoryState) : Nat :=
  h.history.length

/-- Source `push`: drop the redo tail (`slice(0, currentIndex+1)`), append
the snapshot (the source's per-waypoint object spread copies immutable
records, so the snapshot is the list itself), trim to the last `maxSize`
entries (`slice(-maxSize)`; when `maxSize = 0` JavaScript's `slice(-0)`
keeps everything), and point the cursor at the last entry. -/
def push (h : HistoryState) (waypoints : List Waypoint) (action : HistoryAction)
    (now : Nat) : HistoryState :=
  let truncated := h.history.take (h.currentIndex + 1).toNat
  let appended := truncated ++ [{ waypoints := waypoints, timestamp := now, action := action }]
  let trimmed :=
    if h.maxSize < appended.length then
      if h.maxSize = 0 then appended else appended.drop (appended.length - h.maxSize)
    else appended
  { h with history := trimmed, currentIndex := (trimmed.length : Int) - 1 }

/-- Source `undo`: when `canUndo`, decrement the cursor and return the
entry now under it. -/
def undo (h : HistoryState) : Option HistoryEntry × HistoryState :=
  if h.canUndo then
    let c := h.currentIndex - 1
    (h.history.get? c.toNat, { h with currentIndex := c })
  else (none, h)

/-- Source `redo`: when `canRedo`, increment the cursor and return the
entry now under it. -/
def redo (h : HistoryState) : Option HistoryEntry × HistoryState :=
  if h.canRedo then
    let c := h.currentIndex + 1
    (h.history.get? c.toNat, { h with currentIndex := c })
  else (none, h)

/-- Source `clear`. -/
def clear (h : HistoryState) : HistoryState :=
  { h with history := [], currentIndex := -1 }

end HistoryState

/-- Data of one `push` call: the snapshot, the action tag and the clock. -/
abbrev EntryData := List Waypoint × HistoryAction × Nat

/-- Entry a `push` of this data appends. -/
def mkEntry (e : EntryData) : HistoryEntry :=
  { waypoints := e.1, timestamp := e.2.2, action := e.2.1 }

/-- Fold a sequence of `push` calls. -/
def pushAll (h : HistoryState) (es : List EntryData) : HistoryState :=
  es.foldl (fun h e => h.push e.1 e.2.1 e.2.2) h

/-- Iterate `undo`, discarding the returned entries. -/
def undoIter : Nat → HistoryState → HistoryState
  | 0, h => h
  | n + 1, h => undoIter n h.undo.2

/-- Last `n` elements of a list (the effect of `slice(-n)` for `n ≥ 1`). -/
def lastN {α : Type} (n : Nat) (l : List α) : List α :=
  l.drop (l.length - n)

/-! ## Event bus (`infrastructure/EventBusImpl`)

Listener functions are identified by an opaque id (`Nat`): JavaScript
`Set` membership is reference equality of the registered function.  The
`Map` of per-event `Set`s is an insertion-ordered association list, and
each `Set` an insertion-ordered duplicate-free list. -/

abbrev Bus := List (String × List Nat)

namespace EventBusImpl

/-- JavaScript `Set.add`: append only when absent. -/
def setAdd (s : List Nat) (l : Nat) : List Nat :=
  if l ∈ s then s else s ++ [l]

/-- Source `on`: create the event's empty set when missing
(`Map.set` appends a new key), then `Set.add` the listener. -/
def on' (event : String) (listener : Nat) : Bus → Bus
  | [] => [(event, [listener])]
  | (k, v) :: rest =>
      if k = event then (k, setAdd v listener) :: rest
      else (k, v) :: on' event listener rest

/-- Source `off`: delete the listener from the event's set, if present. -/
def off (event : String) (listener : Nat) : Bus → Bus
  | [] => []
  | (k, v) :: rest =>
      if k = event then (k, v.erase listener) :: rest
      else (k, v) :: off event listener rest

/-- Listeners the source's `emit` invokes, in order: the event's set
iterated once (`forEach` calls each member exactly once). -/
def emitInvoked (bus : Bus) (event : String) : List Nat :=
  match bus.find? (fun p => p.1 = event) with
  | none => []
  | some p => p.2

/-- Well-formedness maintained by the bus: every listener set is
duplicate-free (it models a JavaScript `Set`). -/
def BusWF (bus : Bus) : Prop :=
  ∀ p ∈ bus, List.Nodup p.2

end EventBusImpl

/-! ## Planner coordinator (`core/RoutePlanner`)

Each public method becomes a function from `PlannerState` to an `Except`
value: `ensureNotDisposed` throwing is the `.error .disposed` result, and
every method that completes normally returns `.ok` with its return value,
the new state, and the list of events emitted (in order) during the call.
The awaited external calculation inside `recalculate` is resolved by a
`CalcOutcome` argument; the transient `calculating = true` window that
only exists while that call is suspended is not observable in this
synchronous model, so the flag carries the method's final value. -/

/-- Recognized options with their defaults (`DEFAULT_OPTIONS`). -/
structure PlannerOptions where
  maxHistorySize : Nat := 50
  offRouteThreshold : ℚ := 50
  autoRecalculate : Bool := true
deriving DecidableEq

/-- Fields of `RoutePlanner`.  The injected repository, history manager,
geo service and event bus are the default implementations; the event bus's
listener map is externalized (events are returned to the caller), and the
history manager's `maxSize` lives inside `hist`. -/
structure PlannerState where
  store : List Waypoint
  hist : HistoryState
  currentRoute : Option Route
  currentStats : Option RouteStats
  calculating : Bool
  disposed : Bool
  opts : PlannerOptions
deriving DecidableEq

/-- The one fault the planner raises itself
(`new Error('RoutePlanner has been disposed')`). -/
inductive PlannerError where
  | disposed
deriving DecidableEq

/-- Emitted domain events (`RouteEventMap`), with their payloads. -/
inductive REvent where
  | waypointAdded (waypoint : Waypoint) (index : Nat) (allWaypoints : List Waypoint)
  | waypointRemoved (waypoint : Waypoint) (index : Nat) (allWaypoints : List Waypoint)
  | waypointUpdated (waypoint : Waypoint) (previousCoordinate : Coordinate)
      (allWaypoints : List Waypoint)
  | waypointReordered (fromIndex toIndex : Int) (allWaypoints : List Waypoint)
  | routeCalculating (waypointCount : Nat)
  | routeCalculated (route : Route) (stats : RouteStats) (steps : List NavigationStep)
  | routeError (message : String) (waypointCount : Nat)
  | routeCleared (previousWaypointCount : Nat)
  | historyChange (action : String) (canUndo canRedo : Bool) (historySize : Nat)
  | statsUpdated (stats : RouteStats) (previousStats : Option RouteStats)
deriving DecidableEq

/-- Result of `IRouteCalculator.calculate` when a route is produced. -/
structure CalcResult where
  route : Route
  stats : RouteStats
  steps : List NavigationStep
deriving DecidableEq

/-- Resolution of the awaited `calculator.calculate(waypoints)` call:
a value (possibly `null`), or a raised error. -/
inductive CalcOutcome where
  | ok (result : Option CalcResult)
  | raise (message : String)
deriving DecidableEq

namespace RoutePlanner

/-- Planner as built by the constructor with default collaborators. -/
def init (opts : PlannerOptions) : PlannerState :=
  { store := [], hist := HistoryState.empty opts.maxHistorySize,
    currentRoute := none, currentStats := none,
    calculating := false, disposed := false, opts := opts }

/-- Body of `recalculate` after its `ensureNotDisposed` (the state is
known not disposed when the planner's own operations reach it). -/
def recalcR (o : CalcOutcome) (s : PlannerState) : PlannerState × List REvent :=
  let waypoints := s.store
  if waypoints.length < 2 then
    let previousStats := s.currentStats
    let s' := { s with currentRoute := none, currentStats := none }
    match previousStats with
    | some prev =>
        (s', [.statsUpdated
              { distanceMeters := 0, durationSeconds := 0,
                waypointCount := waypoints.length, stepCount := 0 } (some prev)])
    | none => (s', [])
  else
    match o with
    | .ok (some result) =>
        ({ s with currentRoute := some result.route, currentStats := some result.stats,
                  calculating := false },
         [.routeCalculating waypoints.length,
          .routeCalculated result.route result.stats result.steps,
          .statsUpdated result.stats s.currentStats])
    | .ok none =>
        ({ s with calculating := false },
         [.routeCalculating waypoints.length,
          .routeError "Failed to calculate directions" waypoints.length])
    | .raise message =>
        ({ s with calculating := false },
         [.routeCalculating waypoints.length,
          .routeError message waypoints.length])

/-- Public `recalculate()`. -/
def recalculate (o : CalcOutcome) (s : PlannerState) :
    Except PlannerError (PlannerState × List REvent) :=
  if s.disposed then .error .disposed else .ok (recalcR o s)

/-- Shared tail of the mutating operations: emit the given events, then
`await this.recalculate()` when `autoRecalculate` is set. -/
def finishMutation (events : List REvent) (o : CalcOutcome) (s : PlannerState) :
    PlannerState × List REvent :=
  if s.opts.autoRecalculate then
    let r := recalcR o s
    (r.1, events ++ r.2)
  else (s, events)

/-- Public `addWaypoint`: push a pre-mutation snapshot tagged `add`, append
through the repository, emit `waypoint:added`, then maybe recalculate. -/
def addWaypoint (c : Coordinate) (name : Option String) (id : String) (now : Nat)
    (o : CalcOutcome) (s : PlannerState) :
    Except PlannerError (Waypoint × PlannerState × List REvent) :=
  if s.disposed then .error .disposed
  else
    let h1 := s.hist.push s.store .add now
    let r := WaypointRepository.add c name id now s.store
    let s1 := { s with hist := h1, store := r.1 }
    let f := finishMutation [.waypointAdded r.2 r.2.index r.1] o s1
    .ok (r.2, f.1, f.2)

/-- Public `insertWaypoint`: like `addWaypoint` (the snapshot is tagged
`add` in the source), inserting at a clamped index. -/
def insertWaypoint (c : Coordinate) (index : Int) (name : Option String)
    (id : String) (now : Nat) (o : CalcOutcome) (s : PlannerState) :
    Except PlannerError (Waypoint × PlannerState × List REvent) :=
  if s.disposed then .error .disposed
  else
    let h1 := s.hist.push s.store .add now
    let r := WaypointRepository.insert c index name id now s.store
    let s1 := { s with hist := h1, store := r.1 }
    let f := finishMutation [.waypointAdded r.2 r.2.index r.1] o s1
    .ok (r.2, f.1, f.2)

/-- Public `removeWaypoint`: return silently when the id is unknown;
otherwise snapshot, remove, emit `waypoint:removed`, maybe recalculate. -/
def removeWaypoint (id : String) (now : Nat) (o : CalcOutcome) (s : PlannerState) :
    Except PlannerError (PlannerState × List REvent) :=
  if s.disposed then .error .disposed
  else
    match WaypointRepository.getById id s.store with
    | none => .ok (s, [])
    | some waypoint =>
        let h1 := s.hist.push s.store .remove now
        let removedIndex := waypoint.index
        let r := WaypointRepository.remove id s.store
        let s1 := { s with hist := h1, store := r.1 }
        .ok (finishMutation [.waypointRemoved waypoint removedIndex r.1] o s1)

/-- Public `updateWaypoint`: return silently when the id is unknown;
otherwise snapshot, update coordinates, emit `waypoint:updated`, maybe
recalculate.  The inner early return on a `null` previous coordinate is
kept even though it cannot fire after a successful `getById`. -/
def updateWaypoint (id : String) (c : Coordinate) (now : Nat) (o : CalcOutcome)
    (s : PlannerState) : Except PlannerError (PlannerState × List REvent) :=
  if s.disposed then .error .disposed
  else
    match WaypointRepository.getById id s.store with
    | none => .ok (s, [])
    | some _ =>
        let h1 := s.hist.push s.store .update now
        let r := WaypointRepository.update id c s.store
        match r.2 with
        | none => .ok ({ s with hist := h1, store := r.1 }, [])
        | some previousCoordinate =>
            let s1 := { s with hist := h1, store := r.1 }
            match WaypointRepository.getById id r.1 with
            | none => .ok (s1, [])
            | some updatedWaypoint =>
                .ok (finishMutation
                      [.waypointUpdated updatedWaypoint previousCoordinate r.1] o s1)

/-- Public `reorderWaypoints`: the snapshot is pushed before the
repository reorder is attempted; on failure the operation returns with the
pushed snapshot in place but no mutation and no event. -/
def reorderWaypoints (fromIndex toIndex : Int) (now : Nat) (o : CalcOutcome)
    (s : PlannerState) : Except PlannerError (PlannerState × List REvent) :=
  if s.disposed then .error .disposed
  else
    let h1 := s.hist.push s.store .reorder now
    let r := WaypointRepository.reorder fromIndex toIndex s.store
    if r.2 then
      let s1 := { s with hist := h1, store := r.1 }
      .ok (finishMutation [.waypointReordered fromIndex toIndex r.1] o s1)
    else .ok ({ s with hist := h1 }, [])

/-- Public `clear`: snapshot only when waypoints existed, clear the store
and the current route/stats, and emit `route:cleared`.  No recalculation
happens. -/
def clear (now : Nat) (s : PlannerState) :
    Except PlannerError (PlannerState × List REvent) :=
  if s.disposed then .error .disposed
  else
    let previousCount := s.store.length
    let h1 := if 0 < previousCount then s.hist.push s.store .clear now else s.hist
    .ok ({ s with hist := h1, store := [], currentRoute := none, currentStats := none },
         [.routeCleared previousCount])

/-- Public `undo`: take the previous history entry if any, `setAll` the
store to its snapshot, emit `history:change`, maybe recalculate; `false`
when no entry was available. -/
def undo (o : CalcOutcome) (s : PlannerState) :
    Except PlannerError (Bool × PlannerState × List REvent) :=
  if s.disposed then .error .disposed
  else
    match s.hist.undo with
    | (none, _) => .ok (false, s, [])
    | (some entry, h1) =>
        let s1 := { s with hist := h1, store := WaypointRepository.setAll entry.waypoints }
        let f := finishMutation
          [.historyChange "undo" h1.canUndo h1.canRedo h1.getSize] o s1
        .ok (true, f.1, f.2)

/-- Public `redo`: symmetric to `undo`. -/
def redo (o : CalcOutcome) (s : PlannerState) :
    Except PlannerError (Bool × PlannerState × List REvent) :=
  if s.disposed then .error .disposed
  else
    match s.hist.redo with
    | (none, _) => .ok (false, s, [])
    | (some entry, h1) =>
        let s1 := { s with hist := h1, store := WaypointRepository.setAll entry.waypoints }
        let f := finishMutation
          [.historyChange "redo" h1.canUndo h1.canRedo h1.getSize] o s1
        .ok (true, f.1, f.2)

/-- Public `dispose`: flip the flag, drop listeners (externalized here),
clear store and history, null the route/stats, cancel the calculator. -/
def dispose (s : PlannerState) : PlannerState :=
  { s with disposed := true, store := [], hist := s.hist.clear,
           currentRoute := none, currentStats := none }

/-! The read-only methods perform no `ensureNotDisposed` check and never
throw; they are wrapped in the same `Except` type to make that visible. -/

/-- Public `getWaypoints` (no disposed check in the source). -/
def getWaypoints (s : PlannerState) : Except PlannerError (List Waypoint) :=
  .ok s.store

/-- Public `getRoute` (no disposed check in the source). -/
def getRoute (s : PlannerState) : Except PlannerError (Option Route) :=
  .ok s.currentRoute

/-- Public `getStats` (no disposed check in the source). -/
def getStats (s : PlannerState) : Except PlannerError (Option RouteStats) :=
  .ok s.currentStats

/-- Public `getNavigationSteps` (no disposed check in the source). -/
def getNavigationSteps (s : PlannerState) : Except PlannerError (List NavigationStep) :=
  .ok (match s.currentRoute with | some route => route.steps | none => [])

/-- Public `isCalculating` (no disposed check in the source). -/
def isCalculating (s : PlannerState) : Except PlannerError Bool :=
  .ok s.calculating

/-- Public `canUndo` (no disposed check in the source). -/
def canUndo (s : PlannerState) : Except PlannerError Bool :=
  .ok s.hist.canUndo

/-- Public `canRedo` (no disposed check in the source). -/
def canRedo (s : PlannerState) : Except PlannerError Bool :=
  .ok s.hist.canRedo

/-- Public `getHistorySize` (no disposed check in the source). -/
def getHistorySize (s : PlannerState) : Except PlannerError Nat :=
  .ok s.hist.getSize

/-- Public `isDisposed` (no disposed check in the source). -/
def isDisposed (s : PlannerState) : Except PlannerError Bool :=
  .ok s.disposed

/-- Public `getNearestPointOnRoute` (no disposed check in the source). -/
def getNearestPointOnRoute (dist : Coordinate → Coordinate → ℚ) (c : Coordinate)
    (s : PlannerState) : Except PlannerError (Option NearestPointResult) :=
  .ok (match s.currentRoute with
    | none => none
    | some route =>
        if route.geometry.length < 2 then none
        else findNearestPointOnLine dist c route.geometry)

/-- Public `isOffRoute` (no disposed check in the source); `threshold` is
the optional argument, defaulted from the options. -/
def plannerIsOffRoute (dist : Coordinate → Coordinate → ℚ) (c : Coordinate)
    (threshold : Option ℚ) (s : PlannerState) : Except PlannerError Bool :=
  .ok (match s.currentRoute with
    | none => false
    | some route =>
        if route.geometry.length < 2 then false
        else isOffRoute dist c route.geometry (threshold.getD s.opts.offRouteThreshold))

end RoutePlanner

/-- One mutating planner call of the kinds named by the history round-trip
property, with its nondeterministic inputs and calculation outcome. -/
inductive MutCall where
  | addW (c : Coordinate) (name : Option String) (id : String) (now : Nat) (o : CalcOutcome)
  | insertW (c : Coordinate) (index : Int) (name : Option String) (id : String)
      (now : Nat) (o : CalcOutcome)
  | removeW (id : String) (now : Nat) (o : CalcOutcome)
  | updateW (id : String) (c : Coordinate) (now : Nat) (o : CalcOutcome)
  | reorderW (fromIndex toIndex : Int) (now : Nat) (o : CalcOutcome)

/-- State transition of one mutating call (the `.error` branches cannot
fire on a non-disposed planner and keep the state unchanged). -/
def applyCall (s : PlannerState) : MutCall → PlannerState × List REvent
  | .addW c name id now o =>
      match RoutePlanner.addWaypoint c name id now o s with
      | .ok r => (r.2.1, r.2.2)
      | .error _ => (s, [])
  | .insertW c index name id now o =>
      match RoutePlanner.insertWaypoint c index name id now o s with
      | .ok r => (r.2.1, r.2.2)
      | .error _ => (s, [])
  | .removeW id now o =>
      match RoutePlanner.removeWaypoint id now o s with
      | .ok r => r
      | .error _ => (s, [])
  | .updateW id c now o =>
      match RoutePlanner.updateWaypoint id c now o s with
      | .ok r => r
      | .error _ => (s, [])
  | .reorderW f t now o =>
      match RoutePlanner.reorderWaypoints f t now o s with
      | .ok r => r
      | .error _ => (s, [])

/-- Run a sequence of mutating calls. -/
def runCalls (s : PlannerState) (calls : List MutCall) : PlannerState :=
  calls.foldl (fun s c => (applyCall s c).1) s

/-- Whether this call pushes a history entry from this state: add, insert
and reorder always push (reorder pushes even when it then fails); remove
and update push exactly when the id is present. -/
def pushesIn (s : PlannerState) : MutCall → Bool
  | .addW _ _ _ _ _ => true
  | .insertW _ _ _ _ _ _ => true
  | .removeW id _ _ => (WaypointRepository.getById id s.store).isSome
  | .updateW id _ _ _ => (WaypointRepository.getById id s.store).isSome
  | .reorderW _ _ _ _ => true

/-- Every call in the sequence pushes a history entry at its turn. -/
def allPush : PlannerState → List MutCall → Bool
  | _, [] => true
  | s, c :: cs => pushesIn s c && allPush (applyCall s c).1 cs

/-- Waypoint-list snapshots the calls push, in order. -/
def snaps : PlannerState → List MutCall → List (List Waypoint)
  | _, [] => []
  | s, c :: cs => s.store :: snaps (applyCall s c).1 cs

/-- Run a sequence of `undo()` calls, one calculation outcome each. -/
def undoTimes (os : List CalcOutcome) (s : PlannerState) : PlannerState :=
  os.foldl (fun s o =>
    match RoutePlanner.undo o s with
    | .ok r => r.2.1
    | .error _ => s) s

/-- Planner whose history is untouched (as right after construction). -/
def FreshHistory (s : PlannerState) : Prop :=
  s.hist.history = [] ∧ s.hist.currentIndex = -1 ∧ s.disposed = false
    ∧ s.hist.maxSize = s.opts.maxHistorySize

instance (s : PlannerState) : Decidable (FreshHistory s) := by
  unfold FreshHistory; infer_instance

deriving instance DecidableEq for Except

/-! Concrete planner states used to instantiate the theorems below. -/

/-- Planner with one waypoint and untouched history. -/
def exStateOne : PlannerState :=
  { store := [{ id := "a", index := 0, longitude := 0, latitude := 0,
                name := none, createdAt := 0 }],
    hist := HistoryState.empty 50, currentRoute := none, currentStats := none,
    calculating := false, disposed := false, opts := {} }

/-- Planner with two waypoints and untouched history. -/
def exStateTwo : PlannerState :=
  { store := [{ id := "a", index := 0, longitude := 0, latitude := 0,
                name := none, createdAt := 0 },
              { id := "b", index := 1, longitude := 1, latitude := 1,
                name := none, createdAt := 0 }],
    hist := HistoryState.empty 50, currentRoute := none, currentStats := none,
    calculating := false, disposed := false, opts := {} }

/-- Freshly constructed planner, disposed. -/
def exDisposed : PlannerState :=
  RoutePlanner.dispose (RoutePlanner.init {})

/-! ## Geometry lemmas -/

theorem segSum_eq_sum_range (dist : Coordinate → Coordinate → ℚ) (l : List Position) :
    segSum dist l = ∑ j in Finset.range (l.length - 1),
      dist (positionToCoordinate (l.getD j (0, 0)))
        (positionToCoordinate (l.getD (j + 1) (0, 0))) := by
  induction l with
  | nil => simp [segSum]
  | cons a tail ih =>
    cases tail with
    | nil => simp [segSum]
    | cons b rest =>
      rw [segSum]
      rw [ih]
      have hlen : (a :: b :: rest).length - 1 = rest.length + 1 := by simp
      rw [hlen]
      rw [Finset.sum_range_succ']
      have hlen2 : (b :: rest).length - 1 = rest.length := by simp
      rw [hlen2]
      simp only [List.getD_cons_succ, List.getD_cons_zero]
      exact add_comm _ _

/-- Evaluation of the remaining-length loop as an indexed sum over the
tail segments. -/
theorem segSum_drop (dist : Coordinate → Coordinate → ℚ) (l : List Position) (m : Nat) :
    segSum dist (l.drop m) = ∑ j in Finset.Ico m (l.length - 1),
      dist (positionToCoordinate (l.getD j (0, 0)))
        (positionToCoordinate (l.getD (j + 1) (0, 0))) := by
  rw [segSum_eq_sum_range]
  rw [Finset.sum_Ico_eq_sum_range]
  rcases le_or_lt m l.length with hm | hm
  · have hlen : (l.drop m).length = l.length - m := by simp
    have hrange : (l.drop m).length - 1 = l.length - 1 - m := by omega
    rw [hrange]
    apply Finset.sum_congr rfl
    intro j hj
    have h1 : (l.drop m).getD j (0, 0) = l.getD (m + j) (0, 0) := by
      simp [List.getD_eq_getElem?_getD, List.getElem?_drop]
    have h2 : (l.drop m).getD (j + 1) (0, 0) = l.getD (m + j + 1) (0, 0) := by
      simp [List.getD_eq_getElem?_getD, List.getElem?_drop, Nat.add_assoc]
    rw [h1, h2]
  · have hdrop : l.drop m = [] := List.drop_eq_nil_of_le (le_of_lt hm)
    have h1 : (l.drop m).length - 1 = 0 := by rw [hdrop]; rfl
    have h2 : l.length - 1 - m = 0 := by omega
    rw [h1, h2]
    simp

/-- C6: for every metric, polyline, segment index and fraction,
`calculateRemainingLength` returns the partial length of segment
`fromIndex` scaled by `(1 - fromFraction)` plus the full lengths of all
subsequent segments, and returns 0 when `fromIndex` reaches the last
point or the line has fewer than 2 points. -/
theorem remainingLength_closed_form (dist : Coordinate → Coordinate → ℚ)
    (coordinates : List Position) (fromIndex : Nat) (fromFraction : ℚ) :
    calculateRemainingLength dist coordinates fromIndex fromFraction
      = specRemainingDistance dist coordinates fromIndex fromFraction := by
  unfold calculateRemainingLength specRemainingDistance
  by_cases h : coordinates.length < 2 ∨ coordinates.length - 1 ≤ fromIndex
  · simp only [if_pos h]
  · simp only [if_neg h]
    rw [segSum_drop]

/-- C9: for every metric and every polyline (including degenerate ones),
the remaining distance from segment 0 at fraction 0 equals the full line
length. -/
theorem remaining_from_start_eq_lineLength (dist : Coordinate → Coordinate → ℚ)
    (coordinates : List Position) :
    calculateRemainingLength dist coordinates 0 0 = calculateLineLength dist coordinates := by
  match coordinates with
  | [] => simp [calculateRemainingLength, calculateLineLength]
  | [a] => simp [calculateRemainingLength, calculateLineLength]
  | a :: b :: rest =>
    have h : ¬((a :: b :: rest).length < 2 ∨ (a :: b :: rest).length - 1 ≤ 0) := by
      simp
    have h2 : ¬((a :: b :: rest).length < 2) := by simp
    rw [calculateRemainingLength, if_neg h, calculateLineLength, if_neg h2]
    show dist (positionToCoordinate a) (positionToCoordinate b) * (1 - 0)
        + segSum dist (b :: rest) = segSum dist (a :: b :: rest)
    rw [segSum]
    ring

/-- C7: for every metric, probe point, polyline and threshold, `isOffRoute`
is true exactly when the nearest-point distance strictly exceeds the
threshold; it is false for polylines with fewer than 2 points, and false
at a distance exactly equal to the threshold. -/
theorem isOffRoute_characterization (dist : Coordinate → Coordinate → ℚ)
    (location : Coordinate) (line : List Position) (threshold : ℚ) :
    (isOffRoute dist location line threshold = true
        ↔ ∃ r, findNearestPointOnLine dist location line = some r ∧ threshold < r.distance)
      ∧ (line.length < 2 → isOffRoute dist location line threshold = false)
      ∧ (∀ r, findNearestPointOnLine dist location line = some r →
          r.distance = threshold → isOffRoute dist location line threshold = false) := by
  refine ⟨?_, ?_, ?_⟩
  · unfold isOffRoute
    cases h : findNearestPointOnLine dist location line with
    | none => simp
    | some r => simp [h]
  · intro h
    unfold isOffRoute findNearestPointOnLine
    simp [if_pos h]
  · intro r h he
    unfold isOffRoute
    rw [h]
    simp [he]

/-- Witness for C7: on the two-point line from (0,0) to (0,1) with the
constant metric 1 and threshold exactly 1, the probe is not off-route. -/
theorem isOffRoute_characterization_witness :
    isOffRoute (fun _ _ => (1 : ℚ)) ⟨0, 0⟩ [(0, 0), (0, 1)] 1 = false :=
  (isOffRoute_characterization (fun _ _ => (1 : ℚ)) ⟨0, 0⟩ [(0, 0), (0, 1)] 1).2.2
    ⟨⟨0, 0⟩, 1, 0, 0⟩
    (by norm_num [findNearestPointOnLine, nearestFold, nearestPointOnSegment, mathMax,
      mathMin, positionToCoordinate])
    rfl

/-! ## Store index-invariant lemmas -/

namespace WaypointRepository

theorem indexedFrom_reindexFrom (l : List Waypoint) : ∀ n : Nat,
    indexedFrom n (reindexFrom n l) = true := by
  induction l with
  | nil => intro n; rfl
  | cons wp rest ih =>
    intro n
    simp [reindexFrom, indexedFrom, ih (n + 1)]

theorem indexed_reindex (l : List Waypoint) : Indexed (reindex l) :=
  indexedFrom_reindexFrom l 0

theorem indexedFrom_append_single (ws : List Waypoint) : ∀ (n : Nat) (wp : Waypoint),
    indexedFrom n ws = true → wp.index = n + ws.length →
    indexedFrom n (ws ++ [wp]) = true := by
  induction ws with
  | nil =>
    intro n wp _ hwp
    simp only [List.nil_append, indexedFrom, Bool.and_eq_true, decide_eq_true_eq]
    exact ⟨by simpa using hwp, trivial⟩
  | cons w rest ih =>
    intro n wp h hwp
    simp only [indexedFrom, Bool.and_eq_true, decide_eq_true_eq] at h
    simp only [List.cons_append, indexedFrom, Bool.and_eq_true, decide_eq_true_eq]
    refine ⟨h.1, ih (n + 1) wp h.2 ?_⟩
    simp at hwp ⊢
    omega

theorem indexedFrom_set_coords (ws : List Waypoint) :
    ∀ (n i : Nat) (old : Waypoint) (lng lat : ℚ),
    indexedFrom n ws = true → ws.get? i = some old →
    indexedFrom n (ws.set i { old with longitude := lng, latitude := lat }) = true := by
  induction ws with
  | nil => intro n i old lng lat _ hget; simp at hget
  | cons w rest ih =>
    intro n i old lng lat h hget
    simp only [indexedFrom, Bool.and_eq_true, decide_eq_true_eq] at h
    cases i with
    | zero =>
      simp only [List.get?] at hget
      cases hget
      simp only [List.set, indexedFrom, Bool.and_eq_true, decide_eq_true_eq]
      exact ⟨h.1, h.2⟩
    | succ j =>
      simp only [List.get?] at hget
      simp only [List.set, indexedFrom, Bool.and_eq_true, decide_eq_true_eq]
      exact ⟨h.1, ih (n + 1) j old lng lat h.2 hget⟩

/-- Every single store operation preserves the index invariant. -/
theorem applyStoreOp_indexed (ws : List Waypoint) (op : StoreOp) (h : Indexed ws) :
    Indexed (applyStoreOp ws op) := by
  cases op with
  | add c name id now =>
    simp only [applyStoreOp, WaypointRepository.add]
    exact indexedFrom_append_single ws 0 _ h (by simp)
  | insert c index name id now =>
    simp only [applyStoreOp, WaypointRepository.insert]
    exact indexed_reindex _
  | remove id =>
    simp only [applyStoreOp, WaypointRepository.remove]
    split
    · exact h
    · exact indexed_reindex _
  | update id c =>
    simp only [applyStoreOp, WaypointRepository.update]
    split
    · exact h
    · split
      · exact h
      · next old hget => exact indexedFrom_set_coords ws 0 _ old _ _ h hget
  | reorder f t =>
    simp only [applyStoreOp, WaypointRepository.reorder]
    split
    · exact h
    · split
      · exact h
      · exact indexed_reindex _
  | setAll l =>
    simp only [applyStoreOp, WaypointRepository.setAll]
    exact indexedFrom_reindexFrom l 0
  | clear => rfl

theorem foldl_storeOps_indexed (ops : List StoreOp) : ∀ (ws : List Waypoint),
    Indexed ws → Indexed (ops.foldl applyStoreOp ws) := by
  induction ops with
  | nil => intro ws h; exact h
  | cons op rest ih =>
    intro ws h
    exact ih _ (applyStoreOp_indexed ws op h)

end WaypointRepository

/-- C4: for every sequence of store operations (add, insert, remove,
update, reorder, setAll, clear) run from the fresh repository, the
`index` fields of the resulting waypoints are exactly `0 .. count-1` in
list order — and since every prefix of a sequence is itself a sequence,
this holds after each operation returns. -/
theorem store_index_invariant (ops : List StoreOp) :
    WaypointRepository.Indexed (runStore ops) :=
  WaypointRepository.foldl_storeOps_indexed ops [] rfl

/-! ## History manager lemmas -/

theorem lastN_of_le {α : Type} {n : Nat} {l : List α} (h : l.length ≤ n) :
    lastN n l = l := by
  unfold lastN
  rw [Nat.sub_eq_zero_of_le h, List.drop_zero]

theorem lastN_length {α : Type} (n : Nat) (l : List α) : (lastN n l).length ≤ n := by
  unfold lastN
  rw [List.length_drop]
  omega

theorem lastN_append_lastN {α : Type} (n : Nat) (l m : List α) :
    lastN n (lastN n l ++ m) = lastN n (l ++ m) := by
  rcases le_or_lt n l.length with hn | hn
  · unfold lastN
    rw [← List.drop_append_of_le_length (by omega : l.length - n ≤ l.length)]
    rw [List.drop_drop]
    congr 1
    simp only [List.length_drop, List.length_append]
    omega
  · rw [lastN_of_le (le_of_lt hn)]

/-- Behaviour of `push` when the cursor sits on the last entry (no redo
tail): append the new entry and keep the last `maxSize` entries. -/
theorem push_at_end (h : HistoryState) (ws : List Waypoint) (a : HistoryAction)
    (now : Nat) (hc : h.currentIndex = (h.history.length : Int) - 1)
    (hmax : 1 ≤ h.maxSize) :
    (h.push ws a now).history
        = lastN h.maxSize (h.history ++ [{ waypoints := ws, timestamp := now, action := a }])
      ∧ (h.push ws a now).currentIndex = ((h.push ws a now).history.length : Int) - 1
      ∧ (h.push ws a now).maxSize = h.maxSize := by
  unfold HistoryState.push
  have htake : (h.currentIndex + 1).toNat = h.history.length := by omega
  rw [htake, List.take_length]
  have hms : ¬ h.maxSize = 0 := by omega
  set e : HistoryEntry := { waypoints := ws, timestamp := now, action := a } with he
  by_cases hcap : h.maxSize < (h.history ++ [e]).length
  · simp only [if_pos hcap, if_neg hms]
    exact ⟨rfl, trivial, trivial⟩
  · simp only [if_neg hcap]
    exact ⟨(lastN_of_le (by simp only [List.length_append] at hcap ⊢; omega)).symm,
      trivial, trivial⟩

/-- Folding a sequence of pushes from a cursor-at-end state retains the
last `maxSize` of the old entries followed by the pushed ones. -/
theorem pushAll_spec (es : List EntryData) : ∀ (h : HistoryState),
    1 ≤ h.maxSize → h.currentIndex = (h.history.length : Int) - 1 →
    h.history.length ≤ h.maxSize →
    (pushAll h es).history = lastN h.maxSize (h.history ++ es.map mkEntry)
      ∧ (pushAll h es).currentIndex = (((pushAll h es).history.length : Int)) - 1
      ∧ (pushAll h es).maxSize = h.maxSize := by
  induction es with
  | nil =>
    intro h hmax hc hlen
    refine ⟨?_, hc, rfl⟩
    rw [List.map_nil, List.append_nil]
    exact (lastN_of_le hlen).symm
  | cons e rest ih =>
    intro h hmax hc hlen
    have hstep : pushAll h (e :: rest) = pushAll (h.push e.1 e.2.1 e.2.2) rest := rfl
    obtain ⟨h1hist, h1cur, h1max⟩ := push_at_end h e.1 e.2.1 e.2.2 hc hmax
    set h1 := h.push e.1 e.2.1 e.2.2 with hh1
    have h1len : h1.history.length ≤ h1.maxSize := by
      rw [h1hist, h1max]
      exact lastN_length _ _
    obtain ⟨ih1, ih2, ih3⟩ := ih h1 (by omega) h1cur h1len
    rw [hstep]
    refine ⟨?_, ih2, by rw [ih3, h1max]⟩
    rw [ih1, h1hist, h1max]
    rw [lastN_append_lastN]
    rw [List.append_assoc]
    rfl

theorem undo_history_eq (h : HistoryState) : (h.undo).2.history = h.history := by
  unfold HistoryState.undo
  split <;> rfl

theorem undo_cursor_nonneg (h : HistoryState) (hc : 0 ≤ h.currentIndex) :
    0 ≤ (h.undo).2.currentIndex := by
  unfold HistoryState.undo
  by_cases hcu : h.canUndo
  · simp only [if_pos hcu]
    unfold HistoryState.canUndo at hcu
    simp only [decide_eq_true_eq] at hcu
    omega
  · simp only [if_neg hcu]
    exact hc

theorem undo_returned_mem (h : HistoryState) (e : HistoryEntry)
    (he : (h.undo).1 = some e) : e ∈ h.history := by
  unfold HistoryState.undo at he
  by_cases hcu : h.canUndo
  · simp only [if_pos hcu] at he
    exact List.get?_mem he
  · simp only [if_neg hcu] at he
    cases he

theorem undoIter_history_eq (m : Nat) : ∀ h : HistoryState,
    (undoIter m h).history = h.history := by
  induction m with
  | zero => intro h; rfl
  | succ n ih =>
    intro h
    show (undoIter n h.undo.2).history = h.history
    rw [ih, undo_history_eq]

theorem undoIter_cursor_nonneg (m : Nat) : ∀ h : HistoryState,
    0 ≤ h.currentIndex → 0 ≤ (undoIter m h).currentIndex := by
  induction m with
  | zero => intro h hc; exact hc
  | succ n ih =>
    intro h hc
    exact ih _ (undo_cursor_nonneg h hc)

/-- C5: pushing `maxSize + k` entries (`maxSize ≥ 1`, `k ≥ 1`) into a fresh
history manager retains exactly the `maxSize` newest entries — the `k`
oldest are evicted — and however many `undo()` calls follow, the cursor
never leaves the retained list and any entry `undo()` returns is a
retained entry. -/
theorem history_bounded_eviction (maxSize k : Nat) (es : List EntryData)
    (hmax : 1 ≤ maxSize) (hk : 1 ≤ k) (hlen : es.length = maxSize + k) :
    (pushAll (HistoryState.empty maxSize) es).history = (es.map mkEntry).drop k
      ∧ (pushAll (HistoryState.empty maxSize) es).history.length = maxSize
      ∧ (∀ m : Nat,
          (undoIter m (pushAll (HistoryState.empty maxSize) es)).history
              = (pushAll (HistoryState.empty maxSize) es).history
            ∧ 0 ≤ (undoIter m (pushAll (HistoryState.empty maxSize) es)).currentIndex
            ∧ ∀ e, ((undoIter m (pushAll (HistoryState.empty maxSize) es)).undo).1 = some e →
                e ∈ (pushAll (HistoryState.empty maxSize) es).history) := by
  obtain ⟨hhist, hcur, hms⟩ := pushAll_spec es (HistoryState.empty maxSize)
    (by simpa [HistoryState.empty] using hmax) (by simp [HistoryState.empty]) (by simp [HistoryState.empty])
  have hlist : (pushAll (HistoryState.empty maxSize) es).history = (es.map mkEntry).drop k := by
    rw [hhist]
    show lastN (HistoryState.empty maxSize).maxSize ([] ++ es.map mkEntry) = _
    unfold lastN
    simp only [List.nil_append, List.length_map, hlen, HistoryState.empty]
    congr 1
    omega
  have hlength : (pushAll (HistoryState.empty maxSize) es).history.length = maxSize := by
    rw [hlist]
    simp only [List.length_drop, List.length_map, hlen]
    omega
  refine ⟨hlist, hlength, ?_⟩
  intro m
  have hcur0 : 0 ≤ (pushAll (HistoryState.empty maxSize) es).currentIndex := by
    rw [hcur, hlength]
    omega
  refine ⟨undoIter_history_eq m _, undoIter_cursor_nonneg m _ hcur0, ?_⟩
  intro e he
  have := undo_returned_mem _ e he
  rwa [undoIter_history_eq] at this

/-- Witness for C5: a fresh manager of capacity 2 receiving 3 pushes keeps
the 2 newest snapshots. -/
theorem history_bounded_eviction_witness :
    1 ≤ 2 ∧ 1 ≤ 1
      ∧ ([([], HistoryAction.add, 0), ([], HistoryAction.add, 1),
          ([], HistoryAction.add, 2)] : List EntryData).length = 2 + 1
      ∧ (pushAll (HistoryState.empty 2)
            [([], HistoryAction.add, 0), ([], HistoryAction.add, 1),
             ([], HistoryAction.add, 2)]).history
          = (([([], HistoryAction.add, 0), ([], HistoryAction.add, 1),
               ([], HistoryAction.add, 2)] : List EntryData).map mkEntry).drop 1 :=
  ⟨by decide, by decide, by decide,
    (history_bounded_eviction 2 1 _ (by decide) (by decide) (by decide)).1⟩

/-! ## Event bus lemmas -/

namespace EventBusImpl

theorem mem_setAdd_self (s : List Nat) (l : Nat) : l ∈ setAdd s l := by
  unfold setAdd
  by_cases h : l ∈ s
  · simpa [if_pos h] using h
  · simp [if_neg h]

theorem setAdd_mem_eq (s : List Nat) (l : Nat) (h : l ∈ s) : setAdd s l = s := by
  unfold setAdd
  simp [if_pos h]

theorem setAdd_nodup (s : List Nat) (l : Nat) (h : s.Nodup) : (setAdd s l).Nodup := by
  unfold setAdd
  by_cases hm : l ∈ s
  · simpa [if_pos hm] using h
  · simp only [if_neg hm]
    simpa [List.nodup_append] using ⟨h, hm⟩

theorem count_setAdd_self (s : List Nat) (l : Nat) (h : s.Nodup) :
    (setAdd s l).count l = 1 := by
  unfold setAdd
  by_cases hm : l ∈ s
  · simpa [if_pos hm] using List.count_eq_one_of_mem h hm
  · simp only [if_neg hm]
    simp [List.count_eq_zero_of_not_mem hm]

end EventBusImpl

/-- C10: registering the same listener twice on one event leaves the bus
exactly as after one registration; an `emit` of that event then invokes
the listener exactly once, and a single `off` removes it entirely (it is
invoked zero times afterwards). -/
theorem eventbus_single_registration (bus : Bus) (event : String) (listener : Nat)
    (hwf : EventBusImpl.BusWF bus) :
    EventBusImpl.on' event listener (EventBusImpl.on' event listener bus)
        = EventBusImpl.on' event listener bus
      ∧ (EventBusImpl.emitInvoked
          (EventBusImpl.on' event listener (EventBusImpl.on' event listener bus))
          event).count listener = 1
      ∧ (EventBusImpl.emitInvoked
          (EventBusImpl.off event listener
            (EventBusImpl.on' event listener (EventBusImpl.on' event listener bus)))
          event).count listener = 0 := by
  induction bus with
  | nil =>
    refine ⟨?_, ?_, ?_⟩
    · simp [EventBusImpl.on', EventBusImpl.setAdd]
    · simp [EventBusImpl.on', EventBusImpl.setAdd, EventBusImpl.emitInvoked]
    · simp [EventBusImpl.on', EventBusImpl.setAdd, EventBusImpl.off,
        EventBusImpl.emitInvoked]
  | cons p rest ih =>
    obtain ⟨k, v⟩ := p
    have hv : v.Nodup := hwf (k, v) (List.mem_cons_self _ _)
    have hwfr : EventBusImpl.BusWF rest := fun q hq => hwf q (List.mem_cons_of_mem _ hq)
    by_cases hk : k = event
    · subst hk
      have hmem := EventBusImpl.mem_setAdd_self v listener
      refine ⟨?_, ?_, ?_⟩
      · simp [EventBusImpl.on', EventBusImpl.setAdd_mem_eq _ _ hmem]
      · simp [EventBusImpl.on', EventBusImpl.emitInvoked,
          EventBusImpl.setAdd_mem_eq _ _ hmem,
          EventBusImpl.count_setAdd_self v listener hv]
      · simp [EventBusImpl.on', EventBusImpl.off, EventBusImpl.emitInvoked,
          EventBusImpl.setAdd_mem_eq _ _ hmem, List.count_erase_self,
          EventBusImpl.count_setAdd_self v listener hv]
    · obtain ⟨ih1, ih2, ih3⟩ := ih hwfr
      refine ⟨?_, ?_, ?_⟩
      · simp only [EventBusImpl.on', if_neg hk]
        rw [ih1]
      · simp only [EventBusImpl.on', if_neg hk]
        simpa [EventBusImpl.emitInvoked, List.find?_cons_of_neg, hk] using ih2
      · simp only [EventBusImpl.on', if_neg hk, EventBusImpl.off]
        simpa [EventBusImpl.emitInvoked, List.find?_cons_of_neg, hk] using ih3

/-- Witness for C10: double registration of listener 0 for
`route:calculated` on the empty bus, then one emit, invokes it once. -/
theorem eventbus_single_registration_witness :
    EventBusImpl.BusWF []
      ∧ (EventBusImpl.emitInvoked
          (EventBusImpl.on' ("route:calculated") 0 (EventBusImpl.on' ("route:calculated") 0 []))
          "route:calculated").count 0 = 1 :=
  ⟨(fun _p hp => nomatch hp),
    (eventbus_single_registration [] "route:calculated" 0 (fun _p hp => nomatch hp)).2.1⟩

/-! ## Planner error-handling theorems -/

/-- C8: on a live planner with at least 2 waypoints, a failed calculation
(source resolves to `null`, or raises) leaves `route:error` carrying an
error description and the waypoint count among the emitted events, and the
current route and stats exactly as they were. -/
theorem recalc_failure_preserves (s : PlannerState) (o : CalcOutcome)
    (hd : s.disposed = false) (hlen : 2 ≤ s.store.length)
    (hfail : o = CalcOutcome.ok none ∨ ∃ m, o = CalcOutcome.raise m) :
    ∃ msg s' ev, RoutePlanner.recalculate o s = .ok (s', ev)
      ∧ s'.currentRoute = s.currentRoute
      ∧ s'.currentStats = s.currentStats
      ∧ REvent.routeError msg s.store.length ∈ ev := by
  have hnot : ¬ s.store.length < 2 := by omega
  have hrec : ∀ o', RoutePlanner.recalculate o' s = .ok (RoutePlanner.recalcR o' s) := by
    intro o'
    unfold RoutePlanner.recalculate
    rw [hd]
    rfl
  rcases hfail with h | ⟨m, h⟩ <;> subst h
  · refine ⟨"Failed to calculate directions", { s with calculating := false },
      [REvent.routeCalculating s.store.length,
       REvent.routeError "Failed to calculate directions" s.store.length], ?_, rfl, rfl, by simp⟩
    rw [hrec]
    unfold RoutePlanner.recalcR
    simp [hnot]
  · refine ⟨m, { s with calculating := false },
      [REvent.routeCalculating s.store.length, REvent.routeError m s.store.length],
      ?_, rfl, rfl, by simp⟩
    rw [hrec]
    unfold RoutePlanner.recalcR
    simp [hnot]

/-- Witness for C8: the two-waypoint planner with a `null` calculation
result keeps its (empty) route and stats and reports `route:error`. -/
theorem recalc_failure_preserves_witness :
    exStateTwo.disposed = false ∧ 2 ≤ exStateTwo.store.length
      ∧ ∃ msg s' ev, RoutePlanner.recalculate (CalcOutcome.ok none) exStateTwo = .ok (s', ev)
          ∧ s'.currentRoute = exStateTwo.currentRoute
          ∧ s'.currentStats = exStateTwo.currentStats
          ∧ REvent.routeError msg exStateTwo.store.length ∈ ev :=
  ⟨rfl, by decide,
    recalc_failure_preserves exStateTwo (CalcOutcome.ok none) rfl (by decide) (Or.inl rfl)⟩

/-- C3 counterexample: it is not the case that every public operation of a
disposed planner fails with the disposed error — the read-only accessors
(here `getWaypoints`, `getRoute`, `canUndo`) answer normally. -/
theorem disposed_guard_counterexample :
    ¬ (∀ s : PlannerState, s.disposed = true →
        (∀ id now o, RoutePlanner.removeWaypoint id now o s = .error PlannerError.disposed)
        ∧ RoutePlanner.getWaypoints s = .error PlannerError.disposed
        ∧ RoutePlanner.getRoute s = .error PlannerError.disposed
        ∧ RoutePlanner.canUndo s = .error PlannerError.disposed) := by
  intro hclaim
  have h := (hclaim exDisposed rfl).2.1
  exact absurd h (by decide)

/-- C3 amended: after `dispose()`, every state-mutating operation
(`addWaypoint`, `insertWaypoint`, `removeWaypoint`, `updateWaypoint`,
`reorderWaypoints`, `clear`, `undo`, `redo`, `recalculate`) fails with the
disposed error, while the read-only accessors perform no disposed check
and answer from the (torn-down) state. -/
theorem disposed_guard (s : PlannerState) (hd : s.disposed = true) :
    (∀ c name id now o, RoutePlanner.addWaypoint c name id now o s
        = .error PlannerError.disposed)
      ∧ (∀ c i name id now o, RoutePlanner.insertWaypoint c i name id now o s
        = .error PlannerError.disposed)
      ∧ (∀ id now o, RoutePlanner.removeWaypoint id now o s = .error PlannerError.disposed)
      ∧ (∀ id c now o, RoutePlanner.updateWaypoint id c now o s
        = .error PlannerError.disposed)
      ∧ (∀ f t now o, RoutePlanner.reorderWaypoints f t now o s
        = .error PlannerError.disposed)
      ∧ (∀ now, RoutePlanner.clear now s = .error PlannerError.disposed)
      ∧ (∀ o, RoutePlanner.undo o s = .error PlannerError.disposed)
      ∧ (∀ o, RoutePlanner.redo o s = .error PlannerError.disposed)
      ∧ (∀ o, RoutePlanner.recalculate o s = .error PlannerError.disposed)
      ∧ RoutePlanner.getWaypoints s = .ok s.store
      ∧ RoutePlanner.getRoute s = .ok s.currentRoute
      ∧ RoutePlanner.getStats s = .ok s.currentStats
      ∧ RoutePlanner.getNavigationSteps s
          = .ok (match s.currentRoute with | some route => route.steps | none => [])
      ∧ RoutePlanner.canUndo s = .ok s.hist.canUndo
      ∧ RoutePlanner.canRedo s = .ok s.hist.canRedo
      ∧ RoutePlanner.getHistorySize s = .ok s.hist.getSize
      ∧ RoutePlanner.isCalculating s = .ok s.calculating
      ∧ RoutePlanner.isDisposed s = .ok true
      ∧ (∀ dist c th, ∃ b, RoutePlanner.plannerIsOffRoute dist c th s = .ok b) := by
  refine ⟨?_, ?_, ?_, ?_, ?_, ?_, ?_, ?_, ?_, rfl, rfl, rfl, rfl, rfl, rfl, rfl, rfl, ?_, ?_⟩
  · intro c name id now o; unfold RoutePlanner.addWaypoint; rw [hd]; rfl
  · intro c i name id now o; unfold RoutePlanner.insertWaypoint; rw [hd]; rfl
  · intro id now o; unfold RoutePlanner.removeWaypoint; rw [hd]; rfl
  · intro id c now o; unfold RoutePlanner.updateWaypoint; rw [hd]; rfl
  · intro f t now o; unfold RoutePlanner.reorderWaypoints; rw [hd]; rfl
  · intro now; unfold RoutePlanner.clear; rw [hd]; rfl
  · intro o; unfold RoutePlanner.undo; rw [hd]; rfl
  · intro o; unfold RoutePlanner.redo; rw [hd]; rfl
  · intro o; unfold RoutePlanner.recalculate; rw [hd]; rfl
  · unfold RoutePlanner.isDisposed; rw [hd]
  · intro dist c th; exact ⟨_, rfl⟩

/-- Witness for C3 (amended): the disposed fresh planner rejects `undo`
and still answers `getWaypoints`. -/
theorem disposed_guard_witness :
    exDisposed.disposed = true
      ∧ RoutePlanner.undo (CalcOutcome.ok none) exDisposed = .error PlannerError.disposed
      ∧ RoutePlanner.getWaypoints exDisposed = .ok exDisposed.store :=
  ⟨rfl, (disposed_guard exDisposed rfl).2.2.2.2.2.2.1 (CalcOutcome.ok none),
    (disposed_guard exDisposed rfl).2.2.2.2.2.2.2.2.2.1⟩

/-- C2 counterexample: a `reorderWaypoints` call whose reorder fails is
not history-neutral — on a one-waypoint planner with empty history,
`reorderWaypoints(1, 0)` fails yet leaves a pushed history entry, so the
resulting state differs from the initial one. -/
theorem missing_target_noop_counterexample :
    ¬ (∀ (s : PlannerState) (f t : Int) (now : Nat) (o : CalcOutcome),
        s.disposed = false → (WaypointRepository.reorder f t s.store).2 = false →
        RoutePlanner.reorderWaypoints f t now o s = .ok (s, [])) := by
  intro hclaim
  have h := hclaim exStateOne 1 0 0 (CalcOutcome.ok none) rfl (by decide)
  exact absurd h (by decide)

/-- C2 amended: on a live planner, `removeWaypoint`/`updateWaypoint` with
an unknown id return with the state untouched and no event and no history
push; `reorderWaypoints` with out-of-range indices mutates nothing and
emits nothing but still pushes the pre-call snapshot (tagged `reorder`)
onto the history before detecting the failure. -/
theorem missing_target_noop (s : PlannerState) (hd : s.disposed = false) :
    (∀ id now o, WaypointRepository.getById id s.store = none →
        RoutePlanner.removeWaypoint id now o s = .ok (s, []))
      ∧ (∀ id c now o, WaypointRepository.getById id s.store = none →
        RoutePlanner.updateWaypoint id c now o s = .ok (s, []))
      ∧ (∀ f t now o, (WaypointRepository.reorder f t s.store).2 = false →
        RoutePlanner.reorderWaypoints f t now o s
          = .ok ({ s with hist := s.hist.push s.store HistoryAction.reorder now }, [])) := by
  refine ⟨?_, ?_, ?_⟩
  · intro id now o hfind
    unfold RoutePlanner.removeWaypoint
    rw [hd]
    simp only [Bool.false_eq_true, if_false, hfind]
  · intro id c now o hfind
    unfold RoutePlanner.updateWaypoint
    rw [hd]
    simp only [Bool.false_eq_true, if_false, hfind]
  · intro f t now o hfail
    unfold RoutePlanner.reorderWaypoints
    rw [hd]
    simp only [Bool.false_eq_true, if_false, hfail]

/-- Witness for C2 (amended): on the one-waypoint planner, removing an
unknown id is a complete no-op, and the failing reorder pushes exactly one
history entry. -/
theorem missing_target_noop_witness :
    exStateOne.disposed = false
      ∧ WaypointRepository.getById "zz" exStateOne.store = none
      ∧ RoutePlanner.removeWaypoint "zz" 0 (CalcOutcome.ok none) exStateOne
          = .ok (exStateOne, [])
      ∧ (WaypointRepository.reorder 1 0 exStateOne.store).2 = false
      ∧ RoutePlanner.reorderWaypoints 1 0 0 (CalcOutcome.ok none) exStateOne
          = .ok ({ exStateOne with
                   hist := exStateOne.hist.push exStateOne.store HistoryAction.reorder 0 }, []) :=
  ⟨rfl, by decide,
    (missing_target_noop exStateOne rfl).1 "zz" 0 (CalcOutcome.ok none) (by decide),
    by decide,
    (missing_target_noop exStateOne rfl).2.2 1 0 0 (CalcOutcome.ok none) (by decide)⟩

/-! ## History round-trip (undo) lemmas -/

/-- Recalculation never touches the store, the history, the disposed flag
or the options. -/
theorem recalcR_preserves (o : CalcOutcome) (s : PlannerState) :
    (RoutePlanner.recalcR o s).1.store = s.store
      ∧ (RoutePlanner.recalcR o s).1.hist = s.hist
      ∧ (RoutePlanner.recalcR o s).1.disposed = s.disposed
      ∧ (RoutePlanner.recalcR o s).1.opts = s.opts := by
  unfold RoutePlanner.recalcR
  by_cases hl : s.store.length < 2
  · simp only [if_pos hl]
    cases s.currentStats <;> exact ⟨rfl, rfl, rfl, rfl⟩
  · simp only [if_neg hl]
    cases o with
    | ok r => cases r <;> exact ⟨rfl, rfl, rfl, rfl⟩
    | raise m => exact ⟨rfl, rfl, rfl, rfl⟩

/-- The shared mutation tail preserves the store, history, disposed flag
and options of the state it is given. -/
theorem finishMutation_preserves (ev : List REvent) (o : CalcOutcome) (s : PlannerState) :
    (RoutePlanner.finishMutation ev o s).1.store = s.store
      ∧ (RoutePlanner.finishMutation ev o s).1.hist = s.hist
      ∧ (RoutePlanner.finishMutation ev o s).1.disposed = s.disposed
      ∧ (RoutePlanner.finishMutation ev o s).1.opts = s.opts := by
  unfold RoutePlanner.finishMutation
  split
  · exact recalcR_preserves o s
  · exact ⟨rfl, rfl, rfl, rfl⟩

/-- `push` never changes `maxSize`. -/
theorem push_maxSize (h : HistoryState) (ws : List Waypoint) (a : HistoryAction) (n : Nat) :
    (h.push ws a n).maxSize = h.maxSize := rfl

/-- When the cursor sits at the end and there is room, `push` appends and
moves the cursor to the new end. -/
theorem push_no_trim (h : HistoryState) (ws : List Waypoint) (a : HistoryAction) (n : Nat)
    (hc : h.currentIndex = (h.history.length : Int) - 1)
    (hroom : h.history.length + 1 ≤ h.maxSize) :
    (h.push ws a n).history = h.history ++ [{ waypoints := ws, timestamp := n, action := a }]
      ∧ (h.push ws a n).currentIndex = ((h.history.length : Int) + 1) - 1 := by
  obtain ⟨h1, h2, _⟩ := push_at_end h ws a n hc (by omega)
  have happ : (h.push ws a n).history
      = h.history ++ [{ waypoints := ws, timestamp := n, action := a }] := by
    rw [h1]
    exact lastN_of_le (by simp only [List.length_append, List.length_singleton]; omega)
  refine ⟨happ, ?_⟩
  rw [h2, happ]
  simp only [List.length_append, List.length_singleton]
  omega

/-- A successful `find?` yields a `findIdx?` hit whose position holds a
matching element. -/
theorem findIdx?_of_find? (p : Waypoint → Bool) : ∀ (l : List Waypoint) (w : Waypoint),
    l.find? p = some w → ∃ i w', l.findIdx? p = some i ∧ l.get? i = some w' := by
  intro l
  induction l with
  | nil => intro w h; cases h
  | cons a rest ih =>
    intro w h
    by_cases hp : p a = true
    · exact ⟨0, a, by simp [List.findIdx?_cons, hp], rfl⟩
    · have hp' : p a = false := by simpa using hp
      rw [List.find?_cons_of_neg _ hp] at h
      obtain ⟨i, w', hi, hw⟩ := ih w h
      refine ⟨i + 1, w', ?_, by simpa using hw⟩
      simp [List.findIdx?_cons, hp', hi]

/-- Any mutating call that pushes (from a live planner) leaves the history
equal to a push of the pre-call store, stays live, and keeps the options. -/
theorem applyCall_pushes (s : PlannerState) (c : MutCall) (hd : s.disposed = false)
    (hp : pushesIn s c = true) :
    (∃ a n, (applyCall s c).1.hist = s.hist.push s.store a n)
      ∧ (applyCall s c).1.disposed = false
      ∧ (applyCall s c).1.opts = s.opts := by
  have hnd : ¬ s.disposed = true := by simp [hd]
  cases c with
  | addW cc name id now o =>
    simp only [applyCall]
    unfold RoutePlanner.addWaypoint
    rw [if_neg hnd]
    obtain ⟨h1, h2, h3, h4⟩ := finishMutation_preserves
      [REvent.waypointAdded (WaypointRepository.add cc name id now s.store).2
        (WaypointRepository.add cc name id now s.store).2.index
        (WaypointRepository.add cc name id now s.store).1] o
      { s with hist := s.hist.push s.store HistoryAction.add now,
               store := (WaypointRepository.add cc name id now s.store).1 }
    exact ⟨⟨HistoryAction.add, now, h2⟩, by rw [h3]; exact hd, h4⟩
  | insertW cc idx name id now o =>
    simp only [applyCall]
    unfold RoutePlanner.insertWaypoint
    rw [if_neg hnd]
    obtain ⟨h1, h2, h3, h4⟩ := finishMutation_preserves
      [REvent.waypointAdded (WaypointRepository.insert cc idx name id now s.store).2
        (WaypointRepository.insert cc idx name id now s.store).2.index
        (WaypointRepository.insert cc idx name id now s.store).1] o
      { s with hist := s.hist.push s.store HistoryAction.add now,
               store := (WaypointRepository.insert cc idx name id now s.store).1 }
    exact ⟨⟨HistoryAction.add, now, h2⟩, by rw [h3]; exact hd, h4⟩
  | removeW id now o =>
    simp only [applyCall]
    unfold RoutePlanner.removeWaypoint
    rw [if_neg hnd]
    unfold pushesIn at hp
    obtain ⟨w, hw⟩ := Option.isSome_iff_exists.mp hp
    rw [hw]
    obtain ⟨h1, h2, h3, h4⟩ := finishMutation_preserves
      [REvent.waypointRemoved w w.index (WaypointRepository.remove id s.store).1] o
      { s with hist := s.hist.push s.store HistoryAction.remove now,
               store := (WaypointRepository.remove id s.store).1 }
    exact ⟨⟨HistoryAction.remove, now, h2⟩, by rw [h3]; exact hd, h4⟩
  | updateW id cc now o =>
    simp only [applyCall]
    unfold RoutePlanner.updateWaypoint
    rw [if_neg hnd]
    unfold pushesIn at hp
    obtain ⟨w, hw⟩ := Option.isSome_iff_exists.mp hp
    rw [hw]
    unfold WaypointRepository.update
    obtain ⟨i, w2, hi, hget⟩ := findIdx?_of_find? (fun wp => wp.id = id) s.store w hw
    rw [hi]
    dsimp only
    rw [hget]
    cases hfind2 : WaypointRepository.getById id
        (s.store.set i { w2 with longitude := cc.longitude, latitude := cc.latitude }) with
    | none => exact ⟨⟨HistoryAction.update, now, rfl⟩, hd, rfl⟩
    | some updated =>
      obtain ⟨h1, h2, h3, h4⟩ := finishMutation_preserves
        [REvent.waypointUpdated updated { longitude := cc.longitude, latitude := cc.latitude }
          (s.store.set i { w2 with longitude := cc.longitude, latitude := cc.latitude })] o
        { s with hist := s.hist.push s.store HistoryAction.update now,
                 store := s.store.set i
                   { w2 with longitude := cc.longitude, latitude := cc.latitude } }
      exact ⟨⟨HistoryAction.update, now, h2⟩, by rw [h3]; exact hd, h4⟩
  | reorderW f t now o =>
    simp only [applyCall]
    unfold RoutePlanner.reorderWaypoints
    rw [if_neg hnd]
    by_cases hr : (WaypointRepository.reorder f t s.store).2 = true
    · rw [if_pos hr]
      obtain ⟨h1, h2, h3, h4⟩ := finishMutation_preserves
        [REvent.waypointReordered f t (WaypointRepository.reorder f t s.store).1] o
        { s with hist := s.hist.push s.store HistoryAction.reorder now,
                 store := (WaypointRepository.reorder f t s.store).1 }
      exact ⟨⟨HistoryAction.reorder, now, h2⟩, by rw [h3]; exact hd, h4⟩
    · rw [if_neg hr]
      exact ⟨⟨HistoryAction.reorder, now, rfl⟩, hd, rfl⟩

/-- Running a sequence of always-pushing mutating calls on a live planner
whose history cursor sits at the end and whose capacity is not exceeded
appends exactly the per-call pre-states as snapshots, with the cursor at
the new end. -/
theorem runCalls_spec (calls : List MutCall) : ∀ (s : PlannerState),
    s.disposed = false →
    1 ≤ s.hist.maxSize →
    s.hist.currentIndex = (s.hist.history.length : Int) - 1 →
    s.hist.history.length + calls.length ≤ s.hist.maxSize →
    allPush s calls = true →
    (runCalls s calls).hist.history.map (fun e => e.waypoints)
        = s.hist.history.map (fun e => e.waypoints) ++ snaps s calls
      ∧ (runCalls s calls).hist.history.length = s.hist.history.length + calls.length
      ∧ (runCalls s calls).hist.currentIndex
          = ((runCalls s calls).hist.history.length : Int) - 1
      ∧ (runCalls s calls).disposed = false
      ∧ (runCalls s calls).hist.maxSize = s.hist.maxSize := by
  induction calls with
  | nil =>
    intro s hd hm hc hroom hall
    exact ⟨by simp [runCalls, snaps], by simp [runCalls],
      by simpa [runCalls] using hc, hd, rfl⟩
  | cons c cs ih =>
    intro s hd hm hc hroom hall
    have hall' : pushesIn s c = true ∧ allPush (applyCall s c).1 cs = true := by
      simpa [allPush, Bool.and_eq_true] using hall
    obtain ⟨⟨a, n, hhist⟩, hd1, _hopts⟩ := applyCall_pushes s c hd hall'.1
    have hlen1 : s.hist.history.length + 1 ≤ s.hist.maxSize := by
      simp only [List.length_cons] at hroom
      omega
    obtain ⟨hp1, hp2⟩ := push_no_trim s.hist s.store a n hc hlen1
    have h1hist : (applyCall s c).1.hist.history
        = s.hist.history ++ [{ waypoints := s.store, timestamp := n, action := a }] := by
      rw [hhist, hp1]
    have h1len : (applyCall s c).1.hist.history.length = s.hist.history.length + 1 := by
      rw [h1hist]
      simp
    have h1cur : (applyCall s c).1.hist.currentIndex
        = ((applyCall s c).1.hist.history.length : Int) - 1 := by
      rw [hhist, hp2, hp1]
      simp only [List.length_append, List.length_singleton]
      push_cast
      ring
    have h1max : (applyCall s c).1.hist.maxSize = s.hist.maxSize := by
      rw [hhist]
      rfl
    have h1room : (applyCall s c).1.hist.history.length + cs.length
        ≤ (applyCall s c).1.hist.maxSize := by
      rw [h1max, h1len]
      simp only [List.length_cons] at hroom
      omega
    obtain ⟨ih1, ih2, ih3, ih4, ih5⟩ :=
      ih (applyCall s c).1 hd1 (by rw [h1max]; exact hm) h1cur h1room hall'.2
    have hrun : runCalls s (c :: cs) = runCalls (applyCall s c).1 cs := rfl
    refine ⟨?_, ?_, ?_, ?_, ?_⟩
    · rw [hrun, ih1, h1hist]
      rw [show snaps s (c :: cs) = s.store :: snaps (applyCall s c).1 cs from rfl]
      simp
    · rw [hrun, ih2, h1len]
      simp only [List.length_cons]
      omega
    · rw [hrun]
      exact ih3
    · rw [hrun]
      exact ih4
    · rw [hrun, ih5, h1max]

/-- Reindexing a correctly indexed list is the identity, so `setAll` of a
snapshot of a correctly indexed store restores it exactly. -/
theorem reindexFrom_of_indexedFrom : ∀ (l : List Waypoint) (n : Nat),
    WaypointRepository.indexedFrom n l = true → WaypointRepository.reindexFrom n l = l := by
  intro l
  induction l with
  | nil => intro n _; rfl
  | cons wp rest ih =>
    intro n h
    simp only [WaypointRepository.indexedFrom, Bool.and_eq_true, decide_eq_true_eq] at h
    unfold WaypointRepository.reindexFrom
    rw [ih (n + 1) h.2, ← h.1]

theorem setAll_of_indexed (l : List Waypoint) (h : WaypointRepository.Indexed l) :
    WaypointRepository.setAll l = l :=
  reindexFrom_of_indexedFrom l 0 h

/-- `undo` when the cursor can move: decrement and read the entry. -/
theorem undo_of_canUndo (h : HistoryState) (hc : 1 ≤ h.currentIndex) :
    h.undo = (h.history.get? (h.currentIndex - 1).toNat,
      { h with currentIndex := h.currentIndex - 1 }) := by
  unfold HistoryState.undo
  rw [if_pos]
  unfold HistoryState.canUndo
  exact decide_eq_true (by omega)

/-- `undo` when the cursor cannot move: identity. -/
theorem undo_of_cannot (h : HistoryState) (hc : h.currentIndex ≤ 0) :
    h.undo = (none, h) := by
  unfold HistoryState.undo
  rw [if_neg]
  simp only [HistoryState.canUndo, decide_eq_true_eq]
  omega

/-- Planner `undo` on a live planner whose history cursor is at 0 or below
is a complete no-op. -/
theorem plannerUndo_noop (o : CalcOutcome) (s : PlannerState) (hd : s.disposed = false)
    (hc : s.hist.currentIndex ≤ 0) : RoutePlanner.undo o s = .ok (false, s, []) := by
  unfold RoutePlanner.undo
  rw [if_neg (by simp [hd]), undo_of_cannot s.hist hc]

/-- Repeated planner `undo` on a live planner with the cursor at 0 or
below changes nothing. -/
theorem undoTimes_noop (os : List CalcOutcome) : ∀ s : PlannerState,
    s.disposed = false → s.hist.currentIndex ≤ 0 → undoTimes os s = s := by
  induction os with
  | nil => intro s _ _; rfl
  | cons o rest ih =>
    intro s hd hc
    have hstep : (match RoutePlanner.undo o s with
        | .ok r => r.2.1 | .error _ => s) = s := by
      rw [plannerUndo_noop o s hd hc]
    show undoTimes rest (match RoutePlanner.undo o s with
        | .ok r => r.2.1 | .error _ => s) = s
    rw [hstep]
    exact ih s hd hc

/-- Driving `undo` at least `cursor` many times from a live planner whose
cursor is inside the history lands the store on the `setAll` of the very
first retained snapshot. -/
theorem undoTimes_reaches_head (os : List CalcOutcome) : ∀ (s : PlannerState)
    (w0 : List Waypoint),
    s.disposed = false →
    1 ≤ s.hist.currentIndex →
    s.hist.currentIndex < (s.hist.history.length : Int) →
    s.hist.currentIndex ≤ (os.length : Int) →
    (s.hist.history.map (fun e => e.waypoints)).get? 0 = some w0 →
    (undoTimes os s).store = WaypointRepository.setAll w0 := by
  induction os with
  | nil =>
    intro s w0 _ h1 _ h3 _
    exfalso
    simp only [List.length_nil, Nat.cast_zero] at h3
    omega
  | cons o rest ih =>
    intro s w0 hd h1 h2 h3 h0
    have hnd : ¬ s.disposed = true := by simp [hd]
    have hidxlt : (s.hist.currentIndex - 1).toNat < s.hist.history.length := by omega
    obtain ⟨e, he⟩ : ∃ e, s.hist.history.get? (s.hist.currentIndex - 1).toNat = some e := by
      rw [List.get?_eq_get hidxlt]
      exact ⟨_, rfl⟩
    have hundo := undo_of_canUndo s.hist h1
    rw [he] at hundo
    have hstep : (match RoutePlanner.undo o s with | .ok r => r.2.1 | .error _ => s)
        = (RoutePlanner.finishMutation
            [REvent.historyChange "undo"
              ({ s.hist with currentIndex := s.hist.currentIndex - 1 }).canUndo
              ({ s.hist with currentIndex := s.hist.currentIndex - 1 }).canRedo
              ({ s.hist with currentIndex := s.hist.currentIndex - 1 }).getSize] o
            { s with hist := { s.hist with currentIndex := s.hist.currentIndex - 1 },
                     store := WaypointRepository.setAll e.waypoints }).1 := by
      unfold RoutePlanner.undo
      rw [if_neg hnd, hundo]
    obtain ⟨f1, f2, f3, _f4⟩ := finishMutation_preserves
      [REvent.historyChange "undo"
        ({ s.hist with currentIndex := s.hist.currentIndex - 1 }).canUndo
        ({ s.hist with currentIndex := s.hist.currentIndex - 1 }).canRedo
        ({ s.hist with currentIndex := s.hist.currentIndex - 1 }).getSize] o
      { s with hist := { s.hist with currentIndex := s.hist.currentIndex - 1 },
               store := WaypointRepository.setAll e.waypoints }
    have hfold : undoTimes (o :: rest) s = undoTimes rest
        (RoutePlanner.finishMutation
          [REvent.historyChange "undo"
            ({ s.hist with currentIndex := s.hist.currentIndex - 1 }).canUndo
            ({ s.hist with currentIndex := s.hist.currentIndex - 1 }).canRedo
            ({ s.hist with currentIndex := s.hist.currentIndex - 1 }).getSize] o
          { s with hist := { s.hist with currentIndex := s.hist.currentIndex - 1 },
                   store := WaypointRepository.setAll e.waypoints }).1 := by
      show undoTimes rest (match RoutePlanner.undo o s with
          | .ok r => r.2.1 | .error _ => s) = _
      rw [hstep]
    rw [hfold]
    by_cases hlast : s.hist.currentIndex - 1 ≤ 0
    · have hzero : (s.hist.currentIndex - 1).toNat = 0 := by omega
      rw [hzero] at he
      have he0 : e.waypoints = w0 := by
        have hm := h0
        rw [List.get?_map, he] at hm
        simpa using hm
      rw [undoTimes_noop rest _ (by rw [f3]; exact hd) (by rw [f2]; exact hlast)]
      rw [f1, he0]
    · apply ih
      · rw [f3]
        exact hd
      · rw [f2]
        simp only []
        omega
      · rw [f2]
        simp only []
        omega
      · rw [f2]
        simp only [List.length_cons, Nat.cast_add, Nat.cast_one] at h3 ⊢
        omega
      · rw [f2]
        simpa using h0

/-- C1 counterexample: for a single mutating call the round-trip fails —
one `addWaypoint` on a fresh planner pushes the one-and-only history
entry, `canUndo` (cursor `> 0`) is false, so the single `undo()` refuses
and the store keeps the added waypoint. -/
theorem undo_roundtrip_counterexample :
    ¬ (∀ (s : PlannerState) (calls : List MutCall) (os : List CalcOutcome),
        FreshHistory s → WaypointRepository.Indexed s.store →
        os.length = calls.length → allPush s calls = true →
        (undoTimes os (runCalls s calls)).store = s.store) := by
  intro hclaim
  have h := hclaim (RoutePlanner.init {})
    [MutCall.addW ⟨0, 0⟩ none "a" 0 (CalcOutcome.ok none)] [CalcOutcome.ok none]
    (by decide) (by decide) rfl (by decide)
  exact absurd h (by decide)

/-- C1 amended: starting from a planner with untouched history and a
correctly indexed store, for every sequence of `N` mutating calls that
each push a history entry (add/insert/reorder always do; remove/update
exactly when the id exists), with `2 ≤ N ≤ maxHistorySize`, running the
`N` calls and then `N` `undo()` calls leaves the store content-equal to
its state before the first mutation (the `N`-th `undo()` returns false). -/
theorem undo_roundtrip (s : PlannerState) (calls : List MutCall) (os : List CalcOutcome)
    (hfresh : FreshHistory s) (hidx : WaypointRepository.Indexed s.store)
    (hN2 : 2 ≤ calls.length) (hNmax : calls.length ≤ s.opts.maxHistorySize)
    (hos : os.length = calls.length) (hpush : allPush s calls = true) :
    (undoTimes os (runCalls s calls)).store = s.store := by
  obtain ⟨hh, hc, hd, hms⟩ := hfresh
  have hmax1 : 1 ≤ s.hist.maxSize := by omega
  have hc' : s.hist.currentIndex = (s.hist.history.length : Int) - 1 := by
    rw [hc, hh]
    simp
  have hroom : s.hist.history.length + calls.length ≤ s.hist.maxSize := by
    rw [hh, hms]
    simpa using hNmax
  obtain ⟨hmap, hlen, hcur, hd', _hms'⟩ := runCalls_spec calls s hd hmax1 hc' hroom hpush
  have hsnapshead : (snaps s calls).get? 0 = some s.store := by
    cases calls with
    | nil => exact absurd hN2 (by simp)
    | cons c cs => rfl
  have hget0 : ((runCalls s calls).hist.history.map (fun e => e.waypoints)).get? 0
      = some s.store := by
    rw [hmap, hh]
    simpa using hsnapshead
  have hlen' : (runCalls s calls).hist.history.length = calls.length := by
    rw [hlen, hh]
    simp
  have hcur1 : 1 ≤ (runCalls s calls).hist.currentIndex := by
    rw [hcur, hlen']
    omega
  have hcur2 : (runCalls s calls).hist.currentIndex
      < ((runCalls s calls).hist.history.length : Int) := by
    rw [hcur]
    omega
  have hcur3 : (runCalls s calls).hist.currentIndex ≤ (os.length : Int) := by
    rw [hcur, hlen', hos]
    omega
  have hfinal := undoTimes_reaches_head os (runCalls s calls) s.store hd'
    hcur1 hcur2 hcur3 hget0
  rw [hfinal]
  exact setAll_of_indexed s.store hidx

/-- Witness for C1 (amended): two `addWaypoint` calls on the fresh default
planner followed by two `undo()` calls restore the empty store. -/
theorem undo_roundtrip_witness :
    FreshHistory (RoutePlanner.init {})
      ∧ WaypointRepository.Indexed (RoutePlanner.init {}).store
      ∧ 2 ≤ ([MutCall.addW ⟨0, 0⟩ none "a" 0 (CalcOutcome.ok none),
              MutCall.addW ⟨1, 1⟩ none "b" 1 (CalcOutcome.ok none)] : List MutCall).length
      ∧ ([MutCall.addW ⟨0, 0⟩ none "a" 0 (CalcOutcome.ok none),
          MutCall.addW ⟨1, 1⟩ none "b" 1 (CalcOutcome.ok none)] : List MutCall).length
          ≤ (RoutePlanner.init {}).opts.maxHistorySize
      ∧ (undoTimes [CalcOutcome.ok none, CalcOutcome.ok none]
          (runCalls (RoutePlanner.init {})
            [MutCall.addW ⟨0, 0⟩ none "a" 0 (CalcOutcome.ok none),
             MutCall.addW ⟨1, 1⟩ none "b" 1 (CalcOutcome.ok none)])).store
          = (RoutePlanner.init {}).store :=
  ⟨by decide, by decide, by decide, by decide,
    undo_roundtrip (RoutePlanner.init {})
      [MutCall.addW ⟨0, 0⟩ none "a" 0 (CalcOutcome.ok none),
       MutCall.addW ⟨1, 1⟩ none "b" 1 (CalcOutcome.ok none)]
      [CalcOutcome.ok none, CalcOutcome.ok none]
      (by decide) (by decide) (by decide) (by decide) rfl (by decide)⟩

end Waypointjs
